import Mathlib

/-!
Verification of the chat-file-storage backend's file/metadata consistency
layer.  The definitions below are a shallow embedding of the JavaScript
source: the SQLite helper functions of the data-access layer
(getUser, upsertUser, createSharedFile, getSharedFile, deleteSharedFile,
incrementDownloadCount, getUserFileStats, searchFiles), the pure helpers
getFileCategory / formatFileSize of routes/files.js, and the route handlers
that orchestrate the blob store (the uploads/ directory) together with the
database (upload, delete, profile-picture upload, stats).

Modelling conventions:
* timestamps (CURRENT_TIMESTAMP) are passed in explicitly as natural numbers;
* the filesystem is the list of paths currently holding a blob;
* each SQL table is the list of its rows in insertion order, together with
  the next AUTOINCREMENT id;
* SQL NULL on aggregate results is Option.none;
* fallible steps (a UNIQUE violation on INSERT, an I/O error of fs.writeFile,
  a storage-engine error of the upsert) are explicit (Except / injected Bool);
* handlers that interleave blob and row operations additionally return the
  ordered trace of those calls, so ordering claims can be stated.
-/

namespace FileStore

/-! ## Character and string helpers -/

/-- ASCII lower-casing of a single character.  SQLite's default LIKE is
case-insensitive exactly for the ASCII range. -/
def foldChar (c : Char) : Char :=
  if 'A' ≤ c && c ≤ 'Z' then Char.ofNat (c.toNat + 32) else c

/-- Case-folded character list of a string. -/
def foldStr (s : String) : List Char := s.data.map foldChar

/-- Does f hold of some suffix of the list (the list itself included)? -/
def anySuffix (f : List Char → Bool) : List Char → Bool
  | [] => f []
  | c :: t => f (c :: t) || anySuffix f t

/-- JavaScript String.prototype.startsWith, on the underlying characters. -/
def jsStartsWith (s pre : String) : Bool :=
  pre.data.isPrefixOf s.data

/-- JavaScript String.prototype.includes: contiguous substring test. -/
def jsIncludes (s sub : String) : Bool :=
  anySuffix (fun t => sub.data.isPrefixOf t) s.data

/-- SQLite LIKE pattern matching of a full pattern against a full text:
percent matches any (possibly empty) sequence, underscore matches exactly one
character, every other character matches ASCII case-insensitively. -/
def matchFrag : List Char → List Char → Bool
  | [], t => t.isEmpty
  | p :: ps, t =>
    if p == '%' then
      anySuffix (fun u => matchFrag ps u) t
    else
      match t with
      | [] => false
      | c :: t2 => ((p == '_') || (foldChar p == foldChar c)) && matchFrag ps t2

/-- The test the searchFiles query applies to each column: the SQL expression
column LIKE pct-term-pct, with the caller's term spliced into the pattern
unescaped (so percent and underscore inside the term act as wildcards). -/
def likeContains (term s : String) : Bool :=
  matchFrag ('%' :: (term.data ++ ['%'])) s.data

/-- JavaScript path.extname restricted to the final path component: the part
of the base name from its last dot on; empty when there is no dot or when the
only dot is the leading character of the base name. -/
def extname (s : String) : String :=
  let base := (s.data.reverse.takeWhile (fun c => !(c == '/'))).reverse
  let revAfter := base.reverse.takeWhile (fun c => !(c == '.'))
  if revAfter.length = base.length then ""
  else if revAfter.length + 1 = base.length then ""
  else String.mk ('.' :: revAfter.reverse)

/-! ## Pure helpers of routes/files.js -/

/-- routes/files.js getFileCategory: first-match-wins decision table from a
MIME type string to a category tag. -/
def getFileCategory (mimeType : String) : String :=
  if jsStartsWith mimeType "image/" then "image"
  else if jsStartsWith mimeType "video/" then "video"
  else if jsStartsWith mimeType "audio/" then "audio"
  else if mimeType = "application/pdf" then "pdf"
  else if jsStartsWith mimeType "text/" then "text"
  else if jsIncludes mimeType "word" || jsIncludes mimeType "document" then "document"
  else if jsIncludes mimeType "zip" then "archive"
  else "other"

/-- Modelled from the spec: the category decision table of section 4.3, first
match wins, case-sensitive on the MIME prefix; written independently of
getFileCategory so the two can be compared. -/
def categoryOfSpec (mimeType : String) : String :=
  if jsStartsWith mimeType "image/" then "image"
  else if jsStartsWith mimeType "video/" then "video"
  else if jsStartsWith mimeType "audio/" then "audio"
  else if mimeType = "application/pdf" then "pdf"
  else if jsStartsWith mimeType "text/" then "text"
  else if jsIncludes mimeType "word" || jsIncludes mimeType "document" then "document"
  else if jsIncludes mimeType "zip" then "archive"
  else "other"

/-- Fuel-driven base-1024 logarithm; with fuel at least n this is the exact
floor of log base 1024 of n, which is the value of the JavaScript expression
Math.floor(Math.log(bytes) / Math.log(1024)) under exact real arithmetic. -/
def log1024Aux : Nat → Nat → Nat
  | 0, _ => 0
  | fuel + 1, n => if n < 1024 then 0 else log1024Aux fuel (n / 1024) + 1

/-- Unit index used by formatFileSize. -/
def log1024 (n : Nat) : Nat := log1024Aux n n

/-- Decimal rendering of the JavaScript value parseFloat(v.toFixed(2)) for
the non-negative rational n / 100: trailing zeros of the two-decimal form are
stripped, as parseFloat followed by implicit toString does. -/
def twoDecimalsTrimmed (n : Nat) : String :=
  let intPart := n / 100
  let frac := n % 100
  if frac = 0 then toString intPart
  else if frac % 10 = 0 then toString intPart ++ "." ++ toString (frac / 10)
  else if frac < 10 then toString intPart ++ ".0" ++ toString frac
  else toString intPart ++ "." ++ toString frac

/-- routes/files.js formatFileSize.  The unit index is
Math.floor(Math.log(bytes)/Math.log(1024)) (exact-arithmetic semantics,
log1024); the scaled value bytes / 1024 ^ i is rounded to two decimals
(toFixed(2), round half up, computed exactly on naturals) and then run
through parseFloat, which strips trailing fractional zeros.  An index past
the end of the unit table renders as the string undefined, as in JavaScript. -/
def formatFileSize (bytes : Nat) : String :=
  if bytes = 0 then "0 Bytes"
  else
    let i := log1024 bytes
    let p := 1024 ^ i
    let n := (200 * bytes + p) / (2 * p)
    twoDecimalsTrimmed n ++ " " ++ (["Bytes", "KB", "MB", "GB"].getD i "undefined")

/-! ## Data model: the two SQLite tables -/

/-- A row of the shared_files table. -/
structure SharedFileRow where
  id : Nat
  file_id : String
  user_id : String
  original_name : String
  file_name : String
  file_path : String
  file_url : String
  file_size : Nat
  mime_type : String
  description : String
  category : String
  download_count : Nat
  is_public : Bool
  created_at : Nat
  last_accessed : Nat
deriving DecidableEq

/-- A row of the users table. -/
structure UserRow where
  id : Nat
  user_id : String
  username : Option String
  email : Option String
  profile_picture_path : Option String
  profile_picture_url : Option String
  created_at : Nat
  updated_at : Nat
deriving DecidableEq

/-- The database: both tables in insertion order plus the next AUTOINCREMENT
row id of each. -/
structure Db where
  users : List UserRow
  shared_files : List SharedFileRow
  nextUserRowId : Nat
  nextFileRowId : Nat
deriving DecidableEq

/-- The whole system state: database plus blob store (the set of on-disk
paths, as a list). -/
structure Sys where
  db : Db
  blobs : List String
deriving DecidableEq

/-- fs.writeFile: after the call the path holds a blob. -/
def fsWrite (blobs : List String) (p : String) : List String :=
  if blobs.contains p then blobs else blobs ++ [p]

/-- fs.remove (guarded by fs.pathExists in the handlers): idempotent removal. -/
def fsRemove (blobs : List String) (p : String) : List String :=
  blobs.filter (fun q => !(q == p))

/-! ## Data-access helpers (database-simple.js) -/

/-- SELECT * FROM users WHERE user_id = ? (first row). -/
def getUser (db : Db) (userId : String) : Option UserRow :=
  db.users.find? (fun u => u.user_id == userId)

/-- Argument record of upsertUser. -/
structure UserData where
  userId : String
  username : Option String
  email : Option String
  profilePicturePath : Option String
  profilePictureUrl : Option String
deriving DecidableEq

/-- INSERT OR REPLACE INTO users (user_id, username, email,
profile_picture_path, profile_picture_url, updated_at) VALUES (...,
CURRENT_TIMESTAMP).  On a user_id conflict SQLite deletes the old row and
inserts a fresh one: the new row takes a fresh AUTOINCREMENT id and its
created_at column, absent from the column list, takes its DEFAULT
CURRENT_TIMESTAMP. -/
def upsertUser (db : Db) (now : Nat) (d : UserData) : Db :=
  { db with
    users := db.users.filter (fun u => !(u.user_id == d.userId)) ++
      [{ id := db.nextUserRowId, user_id := d.userId, username := d.username,
         email := d.email, profile_picture_path := d.profilePicturePath,
         profile_picture_url := d.profilePictureUrl,
         created_at := now, updated_at := now }],
    nextUserRowId := db.nextUserRowId + 1 }

/-- Argument record of createSharedFile. -/
structure NewFileData where
  fileId : String
  userId : String
  originalName : String
  fileName : String
  filePath : String
  fileUrl : String
  fileSize : Nat
  mimeType : String
  description : String
  category : String
deriving DecidableEq

/-- INSERT INTO shared_files (...) VALUES (...).  download_count and
is_public take their defaults, created_at and last_accessed take
CURRENT_TIMESTAMP.  A row with the same file_id violates the UNIQUE
constraint and the insert fails. -/
def createSharedFile (db : Db) (now : Nat) (d : NewFileData) : Except Unit Db :=
  if db.shared_files.any (fun r => r.file_id == d.fileId) then .error ()
  else .ok { db with
    shared_files := db.shared_files ++
      [{ id := db.nextFileRowId, file_id := d.fileId, user_id := d.userId,
         original_name := d.originalName, file_name := d.fileName,
         file_path := d.filePath, file_url := d.fileUrl,
         file_size := d.fileSize, mime_type := d.mimeType,
         description := d.description, category := d.category,
         download_count := 0, is_public := false,
         created_at := now, last_accessed := now }],
    nextFileRowId := db.nextFileRowId + 1 }

/-- SELECT * FROM shared_files WHERE file_id = ? (first row). -/
def getSharedFile (db : Db) (fileId : String) : Option SharedFileRow :=
  db.shared_files.find? (fun r => r.file_id == fileId)

/-- DELETE FROM shared_files WHERE file_id = ? AND user_id = ?; returns the
number of affected rows together with the new state. -/
def deleteSharedFile (db : Db) (fileId userId : String) : Nat × Db :=
  ((db.shared_files.filter (fun r => r.file_id == fileId && r.user_id == userId)).length,
   { db with shared_files :=
       db.shared_files.filter (fun r => !(r.file_id == fileId && r.user_id == userId)) })

/-- UPDATE shared_files SET download_count = download_count + 1,
last_accessed = CURRENT_TIMESTAMP WHERE file_id = ?; returns the number of
affected rows together with the new state. -/
def incrementDownloadCount (db : Db) (now : Nat) (fileId : String) : Nat × Db :=
  ((db.shared_files.filter (fun r => r.file_id == fileId)).length,
   { db with shared_files := db.shared_files.map (fun r =>
       if r.file_id == fileId then
         { r with download_count := r.download_count + 1, last_accessed := now }
       else r) })

/-- Result row of getUserFileStats; the SUM aggregates are NULL (none) when
no row matches, as in SQL. -/
structure FileStats where
  total_files : Nat
  total_size : Option Nat
  total_downloads : Option Nat
deriving DecidableEq

/-- SELECT COUNT(*), SUM(file_size), SUM(download_count) FROM shared_files
WHERE user_id = ?. -/
def getUserFileStats (db : Db) (userId : String) : FileStats :=
  let rows := db.shared_files.filter (fun r => r.user_id == userId)
  { total_files := rows.length,
    total_size := if rows.isEmpty then none else some ((rows.map (fun r => r.file_size)).sum),
    total_downloads := if rows.isEmpty then none else some ((rows.map (fun r => r.download_count)).sum) }

/-- Stable insertion of a row into a list sorted by created_at descending. -/
def insertDesc (x : SharedFileRow) : List SharedFileRow → List SharedFileRow
  | [] => [x]
  | y :: ys => if x.created_at ≤ y.created_at then y :: insertDesc x ys else x :: y :: ys

/-- ORDER BY created_at DESC. -/
def sortDesc : List SharedFileRow → List SharedFileRow
  | [] => []
  | x :: xs => insertDesc x (sortDesc xs)

/-- SELECT * FROM shared_files WHERE user_id = ? AND (original_name LIKE p OR
description LIKE p OR category LIKE p) ORDER BY created_at DESC LIMIT 20,
with p the pattern pct-term-pct built from the caller's unescaped term. -/
def searchFiles (db : Db) (userId term : String) : List SharedFileRow :=
  (sortDesc (db.shared_files.filter (fun r =>
    r.user_id == userId &&
      (likeContains term r.original_name ||
       likeContains term r.description ||
       likeContains term r.category)))).take 20

/-! ## Route handlers -/

/-- Metadata of the decoded multipart file. -/
structure UploadFile where
  originalname : String
  mimetype : String
  size : Nat
deriving DecidableEq

/-- Body of POST /api/files/upload. -/
structure UploadReq where
  userId : String
  description : Option String
  file : Option UploadFile
deriving DecidableEq

/-- Outcome of the upload handler. -/
inductive UpResp where
  | ok
  | badRequest
  | serverError
deriving DecidableEq

/-- routes/files.js POST /upload: write the blob to
uploads/shared/(fileId + extension), then INSERT the metadata row; the catch
block reports a 500 without touching the just-written blob. -/
def uploadFileHandler (sys : Sys) (now : Nat) (fileId : String) (req : UploadReq) :
    UpResp × Sys :=
  if req.userId = "" then (.badRequest, sys)
  else
    match req.file with
    | none => (.badRequest, sys)
    | some f =>
      let fileName := fileId ++ extname f.originalname
      let fp := "uploads/shared/" ++ fileName
      let blobs1 := fsWrite sys.blobs fp
      match createSharedFile sys.db now
          { fileId := fileId, userId := req.userId,
            originalName := f.originalname, fileName := fileName,
            filePath := fp, fileUrl := "/" ++ fp,
            fileSize := f.size, mimeType := f.mimetype,
            description := req.description.getD "",
            category := getFileCategory f.mimetype } with
      | .error _ => (.serverError, { db := sys.db, blobs := blobs1 })
      | .ok db1 => (.ok, { db := db1, blobs := blobs1 })

/-- Outcome of the delete handler. -/
inductive DelResp where
  | ok
  | notFound
  | forbidden
  | badRequest
deriving DecidableEq

/-- Observable blob/row calls of the delete handler, in program order. -/
inductive DelEv where
  | blobRemove (p : String)
  | rowDelete (fid uid : String)
deriving DecidableEq

/-- routes/files.js DELETE /:fileId: read the row, 404 when absent, 403 on an
owner mismatch; otherwise remove the blob from disk (guarded by pathExists)
and only then DELETE the row.  The trace records the blob and row mutations
in the order the code performs them. -/
def deleteFileHandler (sys : Sys) (fileId userId : String) :
    DelResp × Sys × List DelEv :=
  if userId = "" then (.badRequest, sys, [])
  else
    match getSharedFile sys.db fileId with
    | none => (.notFound, sys, [])
    | some file =>
      if !(file.user_id == userId) then (.forbidden, sys, [])
      else
        let blobEvs := if sys.blobs.contains file.file_path
          then [DelEv.blobRemove file.file_path] else []
        let blobs1 := fsRemove sys.blobs file.file_path
        let db1 := (deleteSharedFile sys.db fileId userId).2
        (.ok, { db := db1, blobs := blobs1 }, blobEvs ++ [DelEv.rowDelete fileId userId])

/-- Body of POST /api/profile/upload-picture. -/
structure PicReq where
  userId : String
  username : Option String
  email : Option String
  file : Option UploadFile
deriving DecidableEq

/-- Outcome of the profile-picture handler. -/
inductive PResp where
  | ok
  | badRequest
  | serverError
deriving DecidableEq

/-- Observable blob/row calls of the profile-picture handler, in program
order. -/
inductive PEv where
  | blobWrite (p : String)
  | blobRemoveOld (p : String)
  | upsertRow (u : String)
deriving DecidableEq

/-- routes/profile.js POST /upload-picture: write the new blob, then
best-effort delete the previous picture's blob (read through getUser, errors
swallowed), then upsert the row with the new path and url.  writeOk injects
an fs.writeFile failure (nothing written, 500); upsertOk injects a
storage-engine failure of the upsert (500 after the old blob was already
removed). -/
def uploadPictureHandler (sys : Sys) (now : Nat) (fileId : String) (req : PicReq)
    (writeOk upsertOk : Bool) : PResp × Sys × List PEv :=
  if req.userId = "" then (.badRequest, sys, [])
  else
    match req.file with
    | none => (.badRequest, sys, [])
    | some f =>
      let ext0 := extname f.originalname
      let ext := if ext0 = "" then ".jpg" else ext0
      let fileName := "profile_" ++ req.userId ++ "_" ++ fileId ++ ext
      let fp := "uploads/profiles/" ++ fileName
      if !writeOk then (.serverError, sys, [])
      else
        let blobs1 := fsWrite sys.blobs fp
        let oldPath : Option String :=
          match getUser sys.db req.userId with
          | some u =>
            match u.profile_picture_path with
            | some p => if p = "" then none else some p
            | none => none
          | none => none
        let step2 : List String × List PEv :=
          match oldPath with
          | some p =>
            if blobs1.contains p then (fsRemove blobs1 p, [PEv.blobRemoveOld p])
            else (blobs1, [])
          | none => (blobs1, [])
        if !upsertOk then
          (.serverError, { db := sys.db, blobs := step2.1 }, [PEv.blobWrite fp] ++ step2.2)
        else
          let db1 := upsertUser sys.db now
            { userId := req.userId, username := req.username, email := req.email,
              profilePicturePath := some ("uploads/profiles/" ++ fileName),
              profilePictureUrl := some ("/uploads/profiles/" ++ fileName) }
          (.ok, { db := db1, blobs := step2.1 },
           [PEv.blobWrite fp] ++ step2.2 ++ [PEv.upsertRow req.userId])

/-- Stats portion of the GET /stats/:userId response: each aggregate is
coalesced with the or-zero idiom of the route. -/
structure StatsResp where
  totalFiles : Nat
  totalSize : Nat
  totalDownloads : Nat
deriving DecidableEq

/-- routes/files.js GET /stats/:userId, restricted to the three aggregate
fields: NULL aggregates are replaced by 0 (stats.total_size or-else 0). -/
def statsRoute (db : Db) (userId : String) : StatsResp :=
  let s := getUserFileStats db userId
  { totalFiles := s.total_files,
    totalSize := s.total_size.getD 0,
    totalDownloads := s.total_downloads.getD 0 }

end FileStore

namespace FileStore

/-! ## Helper lemmas -/

lemma mem_fsWrite_self (blobs : List String) (p : String) : p ∈ fsWrite blobs p := by
  unfold fsWrite
  by_cases h : blobs.contains p = true
  · rw [if_pos h]
    exact List.elem_iff.mp h
  · rw [if_neg h]
    exact List.mem_append_right _ (List.mem_singleton_self p)

lemma mem_fsWrite_of_mem {blobs : List String} {a : String} (p : String)
    (h : a ∈ blobs) : a ∈ fsWrite blobs p := by
  unfold fsWrite
  by_cases hc : blobs.contains p = true
  · rw [if_pos hc]; exact h
  · rw [if_neg hc]; exact List.mem_append_left _ h

lemma not_mem_fsRemove_self (blobs : List String) (p : String) :
    p ∉ fsRemove blobs p := by
  simp [fsRemove, List.mem_filter]

lemma anySuffix_iff (f : List Char → Bool) (t : List Char) :
    anySuffix f t = true ↔ ∃ n, f (t.drop n) = true := by
  induction t with
  | nil =>
    simp only [anySuffix]
    constructor
    · intro h; exact ⟨0, h⟩
    · rintro ⟨n, h⟩; simpa using h
  | cons c t ih =>
    simp only [anySuffix, Bool.or_eq_true, ih]
    constructor
    · rintro (h | ⟨n, h⟩)
      · exact ⟨0, by simpa using h⟩
      · exact ⟨n + 1, by simpa using h⟩
    · rintro ⟨n, h⟩
      cases n with
      | zero => exact Or.inl (by simpa using h)
      | succ n => exact Or.inr ⟨n, by simpa using h⟩

lemma matchFrag_plain_pct : ∀ {ps t : List Char},
    (∀ c ∈ ps, c ≠ '%' ∧ c ≠ '_') →
    matchFrag (ps ++ ['%']) t = true →
    (ps.map foldChar) <+: (t.map foldChar) := by
  intro ps
  induction ps with
  | nil =>
    intro t _ _
    simp only [List.map_nil]
    exact List.nil_prefix
  | cons p ps ih =>
    intro t hw h
    have hp := hw p (List.mem_cons_self _ _)
    cases t with
    | nil => simp [matchFrag, beq_iff_eq, hp.1] at h
    | cons c t2 =>
      simp only [List.cons_append, matchFrag, beq_iff_eq, hp.1, if_false,
        Bool.and_eq_true, Bool.or_eq_true] at h
      obtain ⟨hc, h2⟩ := h
      have hc2 : foldChar p = foldChar c := by
        rcases hc with hc | hc
        · exact absurd (by simpa using hc) hp.2
        · simpa using hc
      obtain ⟨w, hwapp⟩ := ih (fun d hd => hw d (List.mem_cons_of_mem _ hd)) h2
      exact ⟨w, by simp [hc2, hwapp]⟩

lemma likeContains_infix {term s : String}
    (hw : ∀ c ∈ term.data, c ≠ '%' ∧ c ≠ '_')
    (h : likeContains term s = true) :
    foldStr term <:+: foldStr s := by
  unfold likeContains at h
  simp only [matchFrag, beq_self_eq_true, if_true] at h
  rw [anySuffix_iff] at h
  obtain ⟨n, hn⟩ := h
  obtain ⟨w, hwapp⟩ := matchFrag_plain_pct hw hn
  refine ⟨(foldStr s).take n, w, ?_⟩
  have hmd : (s.data.drop n).map foldChar = (foldStr s).drop n := by
    simp [foldStr, List.map_drop]
  rw [hmd] at hwapp
  calc (foldStr s).take n ++ (term.data.map foldChar) ++ w
      = (foldStr s).take n ++ ((term.data.map foldChar) ++ w) := by
        rw [List.append_assoc]
    _ = (foldStr s).take n ++ (foldStr s).drop n := by rw [hwapp]
    _ = foldStr s := List.take_append_drop n (foldStr s)

lemma mem_insertDesc {a x : SharedFileRow} : ∀ {l : List SharedFileRow},
    a ∈ insertDesc x l ↔ a = x ∨ a ∈ l := by
  intro l
  induction l with
  | nil => simp [insertDesc]
  | cons y ys ih =>
    by_cases hxy : x.created_at ≤ y.created_at
    · rw [insertDesc, if_pos hxy]
      rw [List.mem_cons, ih, List.mem_cons]
      tauto
    · rw [insertDesc, if_neg hxy]
      rw [List.mem_cons, List.mem_cons]

lemma mem_sortDesc {a : SharedFileRow} : ∀ {l : List SharedFileRow},
    a ∈ sortDesc l ↔ a ∈ l := by
  intro l
  induction l with
  | nil => simp [sortDesc]
  | cons y ys ih => simp [sortDesc, mem_insertDesc, ih]

lemma pairwise_insertDesc (x : SharedFileRow) : ∀ (l : List SharedFileRow),
    l.Pairwise (fun a b => b.created_at ≤ a.created_at) →
    (insertDesc x l).Pairwise (fun a b => b.created_at ≤ a.created_at) := by
  intro l
  induction l with
  | nil => intro _; simp [insertDesc]
  | cons y ys ih =>
    intro h
    rw [List.pairwise_cons] at h
    obtain ⟨hy, hys⟩ := h
    by_cases hxy : x.created_at ≤ y.created_at
    · rw [insertDesc, if_pos hxy, List.pairwise_cons]
      refine ⟨?_, ih hys⟩
      intro b hb
      rcases mem_insertDesc.mp hb with rfl | hb
      · exact hxy
      · exact hy b hb
    · rw [insertDesc, if_neg hxy, List.pairwise_cons]
      refine ⟨?_, List.pairwise_cons.mpr ⟨hy, hys⟩⟩
      intro b hb
      rcases List.mem_cons.mp hb with rfl | hb
      · omega
      · have := hy b hb; omega

lemma pairwise_sortDesc : ∀ (l : List SharedFileRow),
    (sortDesc l).Pairwise (fun a b => b.created_at ≤ a.created_at) := by
  intro l
  induction l with
  | nil => simp [sortDesc]
  | cons y ys ih => exact pairwise_insertDesc y _ ih

lemma length_filter_key_le_one {α : Type} (g : α → String) (x : String) :
    ∀ (l : List α), ((l.map g).Nodup) → (l.filter (fun r => g r == x)).length ≤ 1 := by
  intro l
  induction l with
  | nil => intro _; simp
  | cons a l ih =>
    intro h
    rw [List.map_cons, List.nodup_cons] at h
    obtain ⟨hnotin, hnd⟩ := h
    by_cases hax : (g a == x) = true
    · have hnil : l.filter (fun r => g r == x) = [] := by
        rw [List.filter_eq_nil_iff]
        intro b hb hbx
        apply hnotin
        have h1 : g b = x := by simpa using hbx
        have h2 : g a = x := by simpa using hax
        rw [h2, ← h1]
        exact List.mem_map_of_mem g hb
      simp [List.filter_cons, hax, hnil]
    · simp only [List.filter_cons, hax, if_false]
      exact ih hnd

lemma log1024Aux_spec : ∀ (fuel n : Nat), 0 < n → n ≤ fuel →
    1024 ^ log1024Aux fuel n ≤ n ∧ n < 1024 ^ (log1024Aux fuel n + 1) := by
  intro fuel
  induction fuel with
  | zero => intro n h1 h2; omega
  | succ fuel ih =>
    intro n h1 h2
    by_cases hlt : n < 1024
    · simp only [log1024Aux, if_pos hlt, pow_zero, pow_one]
      omega
    · simp only [log1024Aux, if_neg hlt]
      have hm1 : 0 < n / 1024 := Nat.div_pos (le_of_not_lt hlt) (by norm_num)
      have hm2 : n / 1024 ≤ fuel := by
        have := Nat.div_lt_self h1 (by norm_num : 1 < 1024)
        omega
      obtain ⟨ha, hb⟩ := ih (n / 1024) hm1 hm2
      constructor
      · calc 1024 ^ (log1024Aux fuel (n / 1024) + 1)
            = 1024 ^ (log1024Aux fuel (n / 1024)) * 1024 := by ring
          _ ≤ (n / 1024) * 1024 := Nat.mul_le_mul_right _ ha
          _ ≤ n := Nat.div_mul_le_self n 1024
      · have hmod : n % 1024 < 1024 := Nat.mod_lt _ (by norm_num)
        have hsplit : 1024 * (n / 1024) + n % 1024 = n := Nat.div_add_mod n 1024
        calc n < (n / 1024 + 1) * 1024 := by omega
          _ ≤ 1024 ^ (log1024Aux fuel (n / 1024) + 1) * 1024 :=
            Nat.mul_le_mul_right _ (by omega)
          _ = 1024 ^ (log1024Aux fuel (n / 1024) + 1 + 1) := by ring

lemma log1024_spec (b : Nat) (h : 0 < b) :
    1024 ^ log1024 b ≤ b ∧ b < 1024 ^ (log1024 b + 1) :=
  log1024Aux_spec b b h (le_refl b)

lemma log1024_le_three (b : Nat) (h : 0 < b) (h4 : b < 1024 ^ 4) :
    log1024 b ≤ 3 := by
  have h1 := (log1024_spec b h).1
  have : 1024 ^ log1024 b < 1024 ^ 4 := lt_of_le_of_lt h1 h4
  have := (Nat.pow_lt_pow_iff_right (by norm_num : 1 < 1024)).mp this
  omega

end FileStore

namespace FileStore

/-! ## Handler-level lemmas -/

lemma deleteFileHandler_ok (sys : Sys) (fid uid : String) (r : SharedFileRow)
    (hu : uid ≠ "") (hr : getSharedFile sys.db fid = some r) (hown : r.user_id = uid) :
    deleteFileHandler sys fid uid =
      (DelResp.ok,
       { db := (deleteSharedFile sys.db fid uid).2, blobs := fsRemove sys.blobs r.file_path },
       (if sys.blobs.contains r.file_path then [DelEv.blobRemove r.file_path] else []) ++
         [DelEv.rowDelete fid uid]) := by
  simp [deleteFileHandler, hu, hr, hown]

lemma deleteFileHandler_notFound (sys : Sys) (fid uid : String)
    (hu : uid ≠ "") (hr : getSharedFile sys.db fid = none) :
    deleteFileHandler sys fid uid = (DelResp.notFound, sys, []) := by
  simp [deleteFileHandler, hu, hr]

lemma deleteSharedFile_changes_pos (db : Db) (fid uid : String) (r : SharedFileRow)
    (hr : getSharedFile db fid = some r) (hown : r.user_id = uid) :
    1 ≤ (deleteSharedFile db fid uid).1 := by
  rw [getSharedFile] at hr
  have hmem : r ∈ db.shared_files := List.mem_of_find?_eq_some hr
  have hp : (r.file_id == fid) = true := by simpa using List.find?_some hr
  have : r ∈ db.shared_files.filter (fun x => x.file_id == fid && x.user_id == uid) := by
    rw [List.mem_filter]
    exact ⟨hmem, by simp [hp, hown]⟩
  exact List.length_pos_of_mem this

lemma getSharedFile_after_delete (db : Db) (fid uid : String) (r : SharedFileRow)
    (hnd : (db.shared_files.map (fun x => x.file_id)).Nodup)
    (hr : getSharedFile db fid = some r) (hown : r.user_id = uid) :
    getSharedFile (deleteSharedFile db fid uid).2 fid = none := by
  rw [getSharedFile] at hr
  rw [getSharedFile, List.find?_eq_none]
  intro x hx hbx
  simp only [deleteSharedFile] at hx
  rw [List.mem_filter] at hx
  obtain ⟨hxl, hxp⟩ := hx
  have hxfid : x.file_id = fid := by simpa using hbx
  have hrmem : r ∈ db.shared_files := List.mem_of_find?_eq_some hr
  have hrfid : r.file_id = fid := by simpa using List.find?_some hr
  have hxr : x = r := List.inj_on_of_nodup_map hnd hxl hrmem (by rw [hxfid, hrfid])
  subst hxr
  simp [hxfid, hown] at hxp

lemma deleteSharedFile_changes_zero (db : Db) (fid uid : String)
    (h : getSharedFile db fid = none) : (deleteSharedFile db fid uid).1 = 0 := by
  rw [getSharedFile, List.find?_eq_none] at h
  unfold deleteSharedFile
  rw [List.length_eq_zero, List.filter_eq_nil_iff]
  intro b hb hbp
  rw [Bool.and_eq_true] at hbp
  exact h b hb hbp.1

/-- One UPDATE call bumps the first row matching the file id and sets its
last_accessed to the call time. -/
lemma inc_step (db : Db) (now : Nat) (f : String) (r : SharedFileRow)
    (hr : getSharedFile db f = some r) :
    getSharedFile (incrementDownloadCount db now f).2 f =
      some { r with download_count := r.download_count + 1, last_accessed := now } ∧
    1 ≤ (incrementDownloadCount db now f).1 := by
  rw [getSharedFile] at hr
  have hp : (r.file_id == f) = true := by simpa using List.find?_some hr
  have hmem : r ∈ db.shared_files := List.mem_of_find?_eq_some hr
  constructor
  · rw [getSharedFile]
    show ((db.shared_files.map (fun x =>
      if x.file_id == f then
        { x with download_count := x.download_count + 1, last_accessed := now }
      else x)).find? (fun x => x.file_id == f)) = _
    rw [List.find?_map]
    have hcomp : ((fun x : SharedFileRow => x.file_id == f) ∘ (fun x : SharedFileRow =>
        if x.file_id == f then
          { x with download_count := x.download_count + 1, last_accessed := now }
        else x)) = (fun x : SharedFileRow => x.file_id == f) := by
      funext x
      by_cases hx : x.file_id = f <;> simp [hx]
    rw [hcomp, hr]
    have hpeq : r.file_id = f := by simpa using hp
    simp [hpeq]
  · have : r ∈ db.shared_files.filter (fun x => x.file_id == f) :=
      List.mem_filter.mpr ⟨hmem, hp⟩
    exact List.length_pos_of_mem this

/-- N successive downloads of the same file id, at the given call times. -/
def incrementN (db : Db) (f : String) : List Nat → Db
  | [] => db
  | t :: ts => incrementN (incrementDownloadCount db t f).2 f ts

lemma incrementN_spec (f : String) : ∀ (ts : List Nat) (db : Db) (r : SharedFileRow),
    getSharedFile db f = some r →
    getSharedFile (incrementN db f ts) f =
      some { r with download_count := r.download_count + ts.length,
                    last_accessed := ts.getLastD r.last_accessed } := by
  intro ts
  induction ts with
  | nil =>
    intro db r hr
    simpa using hr
  | cons t ts ih =>
    intro db r hr
    have h1 := (inc_step db t f r hr).1
    have h2 := ih ((incrementDownloadCount db t f).2) _ h1
    show getSharedFile (incrementN (incrementDownloadCount db t f).2 f ts) f = _
    rw [h2]
    simp only [Option.some.injEq, List.getLastD_cons, List.length_cons]
    congr 1
    omega

end FileStore

namespace FileStore

/-! ## Concrete fixtures used by witnesses and counterexamples -/

/-- A sample shared-file row: a small text file owned by user u. -/
def rowA : SharedFileRow :=
  { id := 1, file_id := "f1", user_id := "u", original_name := "abc",
    file_name := "f1.txt", file_path := "uploads/shared/f1.txt",
    file_url := "/uploads/shared/f1.txt", file_size := 3,
    mime_type := "text/plain", description := "", category := "text",
    download_count := 0, is_public := false, created_at := 5, last_accessed := 5 }

/-- A database holding exactly rowA. -/
def dbA : Db :=
  { users := [], shared_files := [rowA], nextUserRowId := 1, nextFileRowId := 2 }

/-- System state: dbA plus the blob of rowA. -/
def sysA : Sys := { db := dbA, blobs := ["uploads/shared/f1.txt"] }

/-- An upload request for user u carrying a small text file. -/
def reqC1 : UploadReq :=
  { userId := "u", description := none,
    file := some { originalname := "a.txt", mimetype := "text/plain", size := 3 } }

/-- A database that already holds a row whose file_id is c, so an INSERT for
file id c violates the UNIQUE constraint. -/
def dbC1 : Db :=
  { users := [], shared_files := [{ rowA with file_id := "c" }],
    nextUserRowId := 1, nextFileRowId := 2 }

/-- A users row that already references a profile picture. -/
def userOld : UserRow :=
  { id := 1, user_id := "u", username := none, email := none,
    profile_picture_path := some "uploads/profiles/old.jpg",
    profile_picture_url := some "/uploads/profiles/old.jpg",
    created_at := 1, updated_at := 1 }

/-- A database holding exactly userOld. -/
def dbP : Db :=
  { users := [userOld], shared_files := [], nextUserRowId := 2, nextFileRowId := 1 }

/-- System state: dbP plus the old profile-picture blob. -/
def sysP : Sys := { db := dbP, blobs := ["uploads/profiles/old.jpg"] }

/-- A profile-picture upload request for user u with a new image. -/
def reqP : PicReq :=
  { userId := "u", username := none, email := none,
    file := some { originalname := "new.png", mimetype := "image/png", size := 9 } }

/-- Upsert payload used to resync user u without picture fields. -/
def dC10 : UserData :=
  { userId := "u", username := some "n", email := none,
    profilePicturePath := none, profilePictureUrl := none }

/-! ## Claims -/

/-- C6: getFileCategory implements the fixed first-match-wins, case-sensitive
decision table (image/, video/, audio/ prefixes give image/video/audio;
exactly application/pdf gives pdf; text/ prefix gives text; a MIME containing
word or document gives document; one containing zip gives archive; anything
else gives other), here stated as agreement with the table transcribed from
the spec, plus the four sample values. -/
theorem claim_C6 :
    (∀ m, getFileCategory m = categoryOfSpec m) ∧
    getFileCategory "image/png" = "image" ∧
    getFileCategory "application/pdf" = "pdf" ∧
    getFileCategory "application/zip" = "archive" ∧
    getFileCategory "application/unknown" = "other" :=
  ⟨fun _ => rfl, by decide, by decide, by decide, by decide⟩

/-- C5 counterexample: formatFileSize does not always show two decimal
places: parseFloat strips the trailing zeros of toFixed(2), so 1536 bytes
formats as 1.5 KB, not 1.50 KB, and 1073741824 bytes formats as 1 GB, not
1.00 GB, contradicting the claimed sample values. -/
theorem claim_C5_cex :
    formatFileSize 1536 = "1.5 KB" ∧ formatFileSize 1536 ≠ "1.50 KB" ∧
    formatFileSize 1073741824 = "1 GB" ∧ formatFileSize 1073741824 ≠ "1.00 GB" := by
  decide

/-- C5 (amended): formatFileSize formats 0 as the literal zero-bytes label
and every positive byte count in the largest 1024-scale unit whose scaled
value is at least 1 (the unit index log1024 satisfies 1024 ^ i less-or-equal
bytes and bytes less-than 1024 ^ (i + 1), and stays within the
Bytes/KB/MB/GB table for byte counts below 1024 ^ 4), with AT MOST two
decimal places: the two-decimal rounding has its trailing fractional zeros
stripped, so formatSize 1536 is the string 1.5 KB and formatSize 1073741824
is the string 1 GB. -/
theorem claim_C5 :
    formatFileSize 0 = "0 Bytes" ∧
    formatFileSize 1536 = "1.5 KB" ∧
    formatFileSize 1073741824 = "1 GB" ∧
    (∀ b, 0 < b → 1024 ^ log1024 b ≤ b ∧ b < 1024 ^ (log1024 b + 1)) ∧
    (∀ b, 0 < b → b < 1024 ^ 4 → log1024 b ≤ 3) :=
  ⟨by decide, by decide, by decide, fun b hb => log1024_spec b hb,
   fun b hb h4 => log1024_le_three b hb h4⟩

/-- Witness for C5 at byte count 1536. -/
theorem claim_C5_witness :
    (1024 ^ log1024 1536 ≤ 1536 ∧ 1536 < 1024 ^ (log1024 1536 + 1)) ∧
    log1024 1536 ≤ 3 :=
  ⟨claim_C5.2.2.2.1 1536 (by decide), claim_C5.2.2.2.2 1536 (by decide) (by decide)⟩

/-- C8 counterexample: for an owner with no shared files the repository
query returns COUNT zero but NULL (not zero) SUM aggregates: total_size and
total_downloads are none rather than some 0. -/
theorem claim_C8_cex :
    (getUserFileStats dbA "alice").total_files = 0 ∧
    (getUserFileStats dbA "alice").total_size = none ∧
    (getUserFileStats dbA "alice").total_downloads = none ∧
    (none : Option Nat) ≠ some 0 := by decide

/-- C8 (amended): for every owner with no shared files the repository-level
getUserFileStats returns count 0 together with NULL (none) sums, and the
stats route coalesces the NULL aggregates so that the response carries
count, totalBytes and totalDownloads all equal to zero. -/
theorem claim_C8 (db : Db) (u : String)
    (h : db.shared_files.filter (fun r => r.user_id == u) = []) :
    getUserFileStats db u =
      { total_files := 0, total_size := none, total_downloads := none } ∧
    statsRoute db u = { totalFiles := 0, totalSize := 0, totalDownloads := 0 } := by
  constructor
  · simp [getUserFileStats, h]
  · simp [statsRoute, getUserFileStats, h]

/-- Witness for C8: the owner alice has no rows in dbA. -/
theorem claim_C8_witness :
    getUserFileStats dbA "alice" =
      { total_files := 0, total_size := none, total_downloads := none } ∧
    statsRoute dbA "alice" = { totalFiles := 0, totalSize := 0, totalDownloads := 0 } :=
  claim_C8 dbA "alice" (by decide)

/-- C9: incrementDownloadCount reports at most one affected row whenever the
file_id column is unique (the schema's UNIQUE constraint); on an existing row
it reports at least one affected row and, in the single update, bumps
download_count by exactly one and sets last_accessed to the call time; and N
successive calls add exactly N to download_count, leaving last_accessed at
the time of the last call (so it is non-decreasing when the call times are). -/
theorem claim_C9 :
    (∀ (db : Db) (now : Nat) (f : String),
       (db.shared_files.map (fun r => r.file_id)).Nodup →
       (incrementDownloadCount db now f).1 ≤ 1) ∧
    (∀ (db : Db) (now : Nat) (f : String) (r : SharedFileRow),
       getSharedFile db f = some r →
       getSharedFile (incrementDownloadCount db now f).2 f =
         some { r with download_count := r.download_count + 1, last_accessed := now } ∧
       1 ≤ (incrementDownloadCount db now f).1) ∧
    (∀ (db : Db) (f : String) (ts : List Nat) (r : SharedFileRow),
       getSharedFile db f = some r →
       getSharedFile (incrementN db f ts) f =
         some { r with download_count := r.download_count + ts.length,
                       last_accessed := ts.getLastD r.last_accessed }) := by
  refine ⟨?_, ?_, ?_⟩
  · intro db now f hnd
    exact length_filter_key_le_one (fun r => r.file_id) f db.shared_files hnd
  · intro db now f r hr
    exact inc_step db now f r hr
  · intro db f ts r hr
    exact incrementN_spec f ts db r hr

/-- Witness for C9 on dbA and its row f1, with two downloads at times 9
and 11. -/
theorem claim_C9_witness :
    (incrementDownloadCount dbA 9 "f1").1 ≤ 1 ∧
    (getSharedFile (incrementDownloadCount dbA 9 "f1").2 "f1" =
       some { rowA with download_count := rowA.download_count + 1, last_accessed := 9 } ∧
     1 ≤ (incrementDownloadCount dbA 9 "f1").1) ∧
    getSharedFile (incrementN dbA "f1" [9, 11]) "f1" =
      some { rowA with download_count := rowA.download_count + [9, 11].length,
                       last_accessed := [9, 11].getLastD rowA.last_accessed } :=
  ⟨claim_C9.1 dbA 9 "f1" (by decide),
   claim_C9.2.1 dbA 9 "f1" rowA (by decide),
   claim_C9.2.2 dbA "f1" [9, 11] rowA (by decide)⟩

/-- C10: upsertUser has INSERT OR REPLACE semantics: when a row for the
userId already exists it is replaced, not updated in place — every row for
that userId in the result carries created_at (and updated_at) equal to the
time of the call and a fresh AUTOINCREMENT id, such a row exists, the
original row is gone, and the new id differs from the old one, so the
original creation timestamp is not preserved. -/
theorem claim_C10 (db : Db) (now : Nat) (d : UserData) (old : UserRow)
    (hmem : old ∈ db.users) (hid : old.user_id = d.userId)
    (hinv : ∀ r ∈ db.users, r.id < db.nextUserRowId) :
    (∀ r ∈ (upsertUser db now d).users, r.user_id = d.userId →
       r.created_at = now ∧ r.updated_at = now ∧ r.id = db.nextUserRowId) ∧
    (∃ r ∈ (upsertUser db now d).users, r.user_id = d.userId) ∧
    old ∉ (upsertUser db now d).users ∧
    db.nextUserRowId ≠ old.id := by
  refine ⟨?_, ?_, ?_, ?_⟩
  · intro r hrmem hru
    unfold upsertUser at hrmem
    rw [List.mem_append] at hrmem
    rcases hrmem with hrl | hrnew
    · rw [List.mem_filter] at hrl
      simp [hru] at hrl
    · rw [List.mem_singleton] at hrnew
      subst hrnew
      exact ⟨rfl, rfl, rfl⟩
  · refine ⟨_, List.mem_append_right _ (List.mem_singleton_self _), rfl⟩
  · intro hcontra
    unfold upsertUser at hcontra
    rw [List.mem_append] at hcontra
    rcases hcontra with hl | hnew
    · rw [List.mem_filter] at hl
      simp [hid] at hl
    · rw [List.mem_singleton] at hnew
      have : old.id = db.nextUserRowId := by rw [hnew]
      have := hinv old hmem
      omega
  · have := hinv old hmem
    omega

/-- Witness for C10: resyncing user u in dbP replaces the stored row. -/
theorem claim_C10_witness :
    (∀ r ∈ (upsertUser dbP 9 dC10).users, r.user_id = dC10.userId →
       r.created_at = 9 ∧ r.updated_at = 9 ∧ r.id = dbP.nextUserRowId) ∧
    (∃ r ∈ (upsertUser dbP 9 dC10).users, r.user_id = dC10.userId) ∧
    userOld ∉ (upsertUser dbP 9 dC10).users ∧
    dbP.nextUserRowId ≠ userOld.id :=
  claim_C10 dbP 9 dC10 userOld (by decide) rfl (by decide)

end FileStore

namespace FileStore

/-- C1 counterexample: an upload whose blob write succeeds and whose
metadata INSERT then fails (here a UNIQUE violation on file_id) reports a
server error while LEAVING the just-written blob in the store: the blob
store is changed and the orphan is not removed, contrary to the claimed
rollback. -/
theorem claim_C1_cex :
    (uploadFileHandler { db := dbC1, blobs := [] } 10 "c" reqC1).1 = UpResp.serverError ∧
    (uploadFileHandler { db := dbC1, blobs := [] } 10 "c" reqC1).2.blobs =
      ["uploads/shared/c.txt"] ∧
    "uploads/shared/c.txt" ∈ (uploadFileHandler { db := dbC1, blobs := [] } 10 "c" reqC1).2.blobs ∧
    (uploadFileHandler { db := dbC1, blobs := [] } 10 "c" reqC1).2.blobs ≠ ([] : List String) := by
  decide

/-- C1 (amended): for every shared-file upload in which the blob write
succeeds and the subsequent metadata create fails, the handler reports the
error with the database unchanged but performs NO rollback: the just-written
blob stays in the blob store (the orphaned-blob state the spec itself calls
Inconsistent). -/
theorem claim_C1 (sys : Sys) (now : Nat) (fid : String) (req : UploadReq)
    (f : UploadFile) (hf : req.file = some f) (hu : req.userId ≠ "")
    (hdup : sys.db.shared_files.any (fun r => r.file_id == fid) = true) :
    uploadFileHandler sys now fid req =
      (UpResp.serverError,
       { db := sys.db,
         blobs := fsWrite sys.blobs ("uploads/shared/" ++ (fid ++ extname f.originalname)) }) ∧
    ("uploads/shared/" ++ (fid ++ extname f.originalname)) ∈
      (uploadFileHandler sys now fid req).2.blobs := by
  have heq : uploadFileHandler sys now fid req =
      (UpResp.serverError,
       { db := sys.db,
         blobs := fsWrite sys.blobs ("uploads/shared/" ++ (fid ++ extname f.originalname)) }) := by
    simp [uploadFileHandler, hf, hu, createSharedFile, hdup]
  refine ⟨heq, ?_⟩
  rw [heq]
  exact mem_fsWrite_self _ _

/-- Witness for C1: the colliding upload of reqC1 into dbC1. -/
theorem claim_C1_witness :
    uploadFileHandler { db := dbC1, blobs := ["b0"] } 10 "c" reqC1 =
      (UpResp.serverError,
       { db := dbC1,
         blobs := fsWrite ["b0"] ("uploads/shared/" ++ ("c" ++ extname "a.txt")) }) ∧
    ("uploads/shared/" ++ ("c" ++ extname "a.txt")) ∈
      (uploadFileHandler { db := dbC1, blobs := ["b0"] } 10 "c" reqC1).2.blobs :=
  claim_C1 { db := dbC1, blobs := ["b0"] } 10 "c" reqC1
    { originalname := "a.txt", mimetype := "text/plain", size := 3 }
    rfl (by decide) (by decide)

/-- Event classifier: is the event a row delete? -/
def isRowDeleteEv : DelEv → Bool
  | DelEv.rowDelete _ _ => true
  | _ => false

/-- Event classifier: is the event a blob removal? -/
def isBlobRemoveEv : DelEv → Bool
  | DelEv.blobRemove _ => true
  | _ => false

/-- C2 counterexample: in a successful owner delete both a blob removal and
a row delete occur, but the row delete does NOT precede the blob removal —
the handler removes the blob from disk first and only then deletes the row,
contrary to the claimed order. -/
theorem claim_C2_cex :
    (deleteFileHandler sysA "f1" "u").2.2.any isRowDeleteEv = true ∧
    (deleteFileHandler sysA "f1" "u").2.2.any isBlobRemoveEv = true ∧
    ¬ ((deleteFileHandler sysA "f1" "u").2.2.findIdx isRowDeleteEv <
       (deleteFileHandler sysA "f1" "u").2.2.findIdx isBlobRemoveEv) := by
  decide

/-- C2 (amended): in a delete of a shared file the blob removal is performed
BEFORE the repository row delete (the trace of a successful run is the blob
removal, if the blob exists, followed by the row delete, and the row delete
then affects at least one row); the handler's pre-read existence/ownership
check means that on the NotFound and Forbidden paths — the paths on which a
row delete would have affected zero rows — it returns before touching the
blob or the database. -/
theorem claim_C2 :
    (∀ (sys : Sys) (fid uid : String) (r : SharedFileRow),
       uid ≠ "" → getSharedFile sys.db fid = some r → r.user_id = uid →
       deleteFileHandler sys fid uid =
         (DelResp.ok,
          { db := (deleteSharedFile sys.db fid uid).2,
            blobs := fsRemove sys.blobs r.file_path },
          (if sys.blobs.contains r.file_path then [DelEv.blobRemove r.file_path] else []) ++
            [DelEv.rowDelete fid uid]) ∧
       1 ≤ (deleteSharedFile sys.db fid uid).1) ∧
    (∀ (sys : Sys) (fid uid : String),
       uid ≠ "" → getSharedFile sys.db fid = none →
       deleteFileHandler sys fid uid = (DelResp.notFound, sys, [])) ∧
    (∀ (sys : Sys) (fid uid : String) (r : SharedFileRow),
       uid ≠ "" → getSharedFile sys.db fid = some r → r.user_id ≠ uid →
       deleteFileHandler sys fid uid = (DelResp.forbidden, sys, [])) := by
  refine ⟨?_, ?_, ?_⟩
  · intro sys fid uid r hu hr hown
    exact ⟨deleteFileHandler_ok sys fid uid r hu hr hown,
           deleteSharedFile_changes_pos sys.db fid uid r hr hown⟩
  · intro sys fid uid hu hr
    exact deleteFileHandler_notFound sys fid uid hu hr
  · intro sys fid uid r hu hr hown
    simp [deleteFileHandler, hu, hr, hown]

/-- Witness for C2: the three paths at concrete states (owner delete in
sysA, missing file id, wrong owner). -/
theorem claim_C2_witness :
    (deleteFileHandler sysA "f1" "u" =
       (DelResp.ok,
        { db := (deleteSharedFile sysA.db "f1" "u").2,
          blobs := fsRemove sysA.blobs rowA.file_path },
        (if sysA.blobs.contains rowA.file_path then [DelEv.blobRemove rowA.file_path] else []) ++
          [DelEv.rowDelete "f1" "u"]) ∧
     1 ≤ (deleteSharedFile sysA.db "f1" "u").1) ∧
    deleteFileHandler sysA "nope" "u" = (DelResp.notFound, sysA, []) ∧
    deleteFileHandler sysA "f1" "v" = (DelResp.forbidden, sysA, []) :=
  ⟨claim_C2.1 sysA "f1" "u" rowA (by decide) (by decide) rfl,
   claim_C2.2.1 sysA "nope" "u" (by decide) (by decide),
   claim_C2.2.2 sysA "f1" "v" rowA (by decide) (by decide) (by decide)⟩

/-- C3 counterexample: deleting the same file twice by its owner: the first
call succeeds, but the second call returns the NotFound fault (the
handler's pre-read check 404s), not a normal zero-rows-affected success. -/
theorem claim_C3_cex :
    (deleteFileHandler sysA "f1" "u").1 = DelResp.ok ∧
    (deleteFileHandler ((deleteFileHandler sysA "f1" "u").2.1) "f1" "u").1 =
      DelResp.notFound ∧
    DelResp.notFound ≠ DelResp.ok := by decide

/-- C3 (amended): deleting the same fileId twice by its owner: the first
call removes both the row and the blob and returns success; at the
repository level the second row delete reports zero rows affected without
raising an error, but the delete ENDPOINT answers the second call with the
NotFound fault (its pre-read check fires before the row delete), leaving the
state unchanged; the blob is absent after both calls. -/
theorem claim_C3 (sys : Sys) (fid uid : String) (r : SharedFileRow)
    (hnd : (sys.db.shared_files.map (fun x => x.file_id)).Nodup)
    (hu : uid ≠ "") (hr : getSharedFile sys.db fid = some r) (hown : r.user_id = uid) :
    (deleteFileHandler sys fid uid).1 = DelResp.ok ∧
    r.file_path ∉ (deleteFileHandler sys fid uid).2.1.blobs ∧
    getSharedFile (deleteFileHandler sys fid uid).2.1.db fid = none ∧
    (deleteSharedFile (deleteFileHandler sys fid uid).2.1.db fid uid).1 = 0 ∧
    deleteFileHandler (deleteFileHandler sys fid uid).2.1 fid uid =
      (DelResp.notFound, (deleteFileHandler sys fid uid).2.1, []) := by
  have hok := deleteFileHandler_ok sys fid uid r hu hr hown
  have hnone : getSharedFile (deleteFileHandler sys fid uid).2.1.db fid = none := by
    rw [hok]
    exact getSharedFile_after_delete sys.db fid uid r hnd hr hown
  refine ⟨by rw [hok], ?_, hnone,
          deleteSharedFile_changes_zero _ _ _ hnone,
          deleteFileHandler_notFound _ _ _ hu hnone⟩
  rw [hok]
  exact not_mem_fsRemove_self _ _

/-- Witness for C3: the double delete of f1 in sysA. -/
theorem claim_C3_witness :
    (deleteFileHandler sysA "f1" "u").1 = DelResp.ok ∧
    rowA.file_path ∉ (deleteFileHandler sysA "f1" "u").2.1.blobs ∧
    getSharedFile (deleteFileHandler sysA "f1" "u").2.1.db "f1" = none ∧
    (deleteSharedFile (deleteFileHandler sysA "f1" "u").2.1.db "f1" "u").1 = 0 ∧
    deleteFileHandler (deleteFileHandler sysA "f1" "u").2.1 "f1" "u" =
      (DelResp.notFound, (deleteFileHandler sysA "f1" "u").2.1, []) :=
  claim_C3 sysA "f1" "u" rowA (by decide) (by decide) (by decide) rfl

end FileStore

namespace FileStore

lemma mem_fsRemove_of_mem_of_ne {blobs : List String} {a p : String}
    (h : a ∈ blobs) (hne : a ≠ p) : a ∈ fsRemove blobs p := by
  rw [fsRemove, List.mem_filter]
  exact ⟨h, by simp [hne]⟩

/-- Path of the new profile-picture blob written by the handler. -/
def newPicPath (uid fid : String) (f : UploadFile) : String :=
  "uploads/profiles/" ++ ("profile_" ++ uid ++ "_" ++ fid ++
    (if extname f.originalname = "" then ".jpg" else extname f.originalname))

/-- Public URL stored for the new profile picture. -/
def newPicUrl (uid fid : String) (f : UploadFile) : String :=
  "/uploads/profiles/" ++ ("profile_" ++ uid ++ "_" ++ fid ++
    (if extname f.originalname = "" then ".jpg" else extname f.originalname))

lemma uploadPictureHandler_upsertFail (sys : Sys) (now : Nat) (fid : String)
    (req : PicReq) (f : UploadFile) (u : UserRow) (p : String)
    (hu : req.userId ≠ "") (hf : req.file = some f)
    (hg : getUser sys.db req.userId = some u)
    (hpp : u.profile_picture_path = some p) (hpne : p ≠ "")
    (hpmem : p ∈ sys.blobs) :
    uploadPictureHandler sys now fid req true false =
      (PResp.serverError,
       { db := sys.db,
         blobs := fsRemove (fsWrite sys.blobs (newPicPath req.userId fid f)) p },
       [PEv.blobWrite (newPicPath req.userId fid f), PEv.blobRemoveOld p]) := by
  have hmem2 : p ∈ fsWrite sys.blobs ("uploads/profiles/" ++
      ("profile_" ++ req.userId ++ "_" ++ fid ++
        (if extname f.originalname = "" then ".jpg" else extname f.originalname))) :=
    mem_fsWrite_of_mem _ hpmem
  simp [uploadPictureHandler, newPicPath, hu, hf, hg, hpp, hpne, hmem2]

lemma uploadPictureHandler_okRun (sys : Sys) (now : Nat) (fid : String)
    (req : PicReq) (f : UploadFile) (u : UserRow) (p : String)
    (hu : req.userId ≠ "") (hf : req.file = some f)
    (hg : getUser sys.db req.userId = some u)
    (hpp : u.profile_picture_path = some p) (hpne : p ≠ "")
    (hpmem : p ∈ sys.blobs) :
    uploadPictureHandler sys now fid req true true =
      (PResp.ok,
       { db := upsertUser sys.db now
           { userId := req.userId, username := req.username, email := req.email,
             profilePicturePath := some (newPicPath req.userId fid f),
             profilePictureUrl := some (newPicUrl req.userId fid f) },
         blobs := fsRemove (fsWrite sys.blobs (newPicPath req.userId fid f)) p },
       [PEv.blobWrite (newPicPath req.userId fid f), PEv.blobRemoveOld p,
        PEv.upsertRow req.userId]) := by
  have hmem2 : p ∈ fsWrite sys.blobs ("uploads/profiles/" ++
      ("profile_" ++ req.userId ++ "_" ++ fid ++
        (if extname f.originalname = "" then ".jpg" else extname f.originalname))) :=
    mem_fsWrite_of_mem _ hpmem
  simp [uploadPictureHandler, newPicPath, newPicUrl, hu, hf, hg, hpp, hpne, hmem2]

/-- C4 counterexample: replacing the profile picture of a user who has one,
with the new blob write succeeding and the subsequent upsert failing: the
operation fails BEFORE the new row commit, yet the old picture's blob has
already been removed while the database row still references it — the old
picture is not left intact, contrary to the claim that the old blob is
deleted only after the upsert succeeds. -/
theorem claim_C4_cex :
    (uploadPictureHandler sysP 7 "id1" reqP true false).1 = PResp.serverError ∧
    "uploads/profiles/old.jpg" ∉ (uploadPictureHandler sysP 7 "id1" reqP true false).2.1.blobs ∧
    getUser (uploadPictureHandler sysP 7 "id1" reqP true false).2.1.db "u" = some userOld ∧
    userOld.profile_picture_path = some "uploads/profiles/old.jpg" := by
  decide

/-- C4 (amended): in a profile-picture replacement the previous blob is
removed after the new blob write succeeds but BEFORE the upsert of the new
path/url (the successful-run trace is blob write, old-blob removal, upsert);
a failure of the new blob write leaves the blob store, the row and hence the
old picture fields untouched, but an upsert failure after that point leaves
the old blob already removed while the users table still carries the old
path. -/
theorem claim_C4 :
    (∀ (sys : Sys) (now : Nat) (fid : String) (req : PicReq) (f : UploadFile)
       (upsertOk : Bool),
       req.userId ≠ "" → req.file = some f →
       uploadPictureHandler sys now fid req false upsertOk =
         (PResp.serverError, sys, [])) ∧
    (∀ (sys : Sys) (now : Nat) (fid : String) (req : PicReq) (f : UploadFile)
       (u : UserRow) (p : String),
       req.userId ≠ "" → req.file = some f →
       getUser sys.db req.userId = some u →
       u.profile_picture_path = some p → p ≠ "" → p ∈ sys.blobs →
       (uploadPictureHandler sys now fid req true true).1 = PResp.ok ∧
       (uploadPictureHandler sys now fid req true true).2.2 =
         [PEv.blobWrite (newPicPath req.userId fid f), PEv.blobRemoveOld p,
          PEv.upsertRow req.userId] ∧
       p ∉ (uploadPictureHandler sys now fid req true true).2.1.blobs ∧
       (p ≠ newPicPath req.userId fid f →
         newPicPath req.userId fid f ∈ (uploadPictureHandler sys now fid req true true).2.1.blobs)) ∧
    (∀ (sys : Sys) (now : Nat) (fid : String) (req : PicReq) (f : UploadFile)
       (u : UserRow) (p : String),
       req.userId ≠ "" → req.file = some f →
       getUser sys.db req.userId = some u →
       u.profile_picture_path = some p → p ≠ "" → p ∈ sys.blobs →
       (uploadPictureHandler sys now fid req true false).1 = PResp.serverError ∧
       (uploadPictureHandler sys now fid req true false).2.1.db = sys.db ∧
       p ∉ (uploadPictureHandler sys now fid req true false).2.1.blobs) := by
  refine ⟨?_, ?_, ?_⟩
  · intro sys now fid req f upsertOk hu hf
    simp [uploadPictureHandler, hu, hf]
  · intro sys now fid req f u p hu hf hg hpp hpne hpmem
    have hrun := uploadPictureHandler_okRun sys now fid req f u p hu hf hg hpp hpne hpmem
    rw [hrun]
    refine ⟨rfl, rfl, not_mem_fsRemove_self _ _, ?_⟩
    intro hne
    exact mem_fsRemove_of_mem_of_ne (mem_fsWrite_self _ _) (Ne.symm hne)
  · intro sys now fid req f u p hu hf hg hpp hpne hpmem
    have hrun := uploadPictureHandler_upsertFail sys now fid req f u p hu hf hg hpp hpne hpmem
    rw [hrun]
    exact ⟨rfl, rfl, not_mem_fsRemove_self _ _⟩

/-- Witness for C4 at the concrete state sysP/reqP. -/
theorem claim_C4_witness :
    uploadPictureHandler sysP 7 "id1" reqP false true = (PResp.serverError, sysP, []) ∧
    ((uploadPictureHandler sysP 7 "id1" reqP true true).1 = PResp.ok ∧
     (uploadPictureHandler sysP 7 "id1" reqP true true).2.2 =
       [PEv.blobWrite (newPicPath "u" "id1" { originalname := "new.png", mimetype := "image/png", size := 9 }),
        PEv.blobRemoveOld "uploads/profiles/old.jpg",
        PEv.upsertRow "u"] ∧
     "uploads/profiles/old.jpg" ∉ (uploadPictureHandler sysP 7 "id1" reqP true true).2.1.blobs ∧
     ("uploads/profiles/old.jpg" ≠ newPicPath "u" "id1" { originalname := "new.png", mimetype := "image/png", size := 9 } →
       newPicPath "u" "id1" { originalname := "new.png", mimetype := "image/png", size := 9 } ∈
         (uploadPictureHandler sysP 7 "id1" reqP true true).2.1.blobs)) ∧
    ((uploadPictureHandler sysP 7 "id1" reqP true false).1 = PResp.serverError ∧
     (uploadPictureHandler sysP 7 "id1" reqP true false).2.1.db = sysP.db ∧
     "uploads/profiles/old.jpg" ∉ (uploadPictureHandler sysP 7 "id1" reqP true false).2.1.blobs) :=
  ⟨claim_C4.1 sysP 7 "id1" reqP
     { originalname := "new.png", mimetype := "image/png", size := 9 } true (by decide) rfl,
   claim_C4.2.1 sysP 7 "id1" reqP
     { originalname := "new.png", mimetype := "image/png", size := 9 } userOld
     "uploads/profiles/old.jpg" (by decide) rfl (by decide) rfl (by decide) (by decide),
   claim_C4.2.2 sysP 7 "id1" reqP
     { originalname := "new.png", mimetype := "image/png", size := 9 } userOld
     "uploads/profiles/old.jpg" (by decide) rfl (by decide) rfl (by decide) (by decide)⟩

/-- C7 counterexample: the search term is spliced into the LIKE pattern
unescaped, so a term consisting of the underscore wildcard matches a row in
none of whose searched fields the term occurs as a (case-insensitive)
substring: the one-row search result for the term underscore contains rowA,
whose name, description and category do not contain an underscore. -/
theorem claim_C7_cex :
    searchFiles dbA "u" "_" = [rowA] ∧
    ¬ (foldStr "_" <:+: foldStr rowA.original_name) ∧
    ¬ (foldStr "_" <:+: foldStr rowA.description) ∧
    ¬ (foldStr "_" <:+: foldStr rowA.category) := by
  decide

/-- C7 (amended): searchFiles returns at most 20 rows; every returned row is
owned by the queried owner and has its name, description or category
matching the SQL LIKE pattern built from the term (percent and underscore in
the term act as wildcards); whenever the term contains no wildcard
character, a LIKE match implies the term occurs in the field as an
ASCII-case-insensitive contiguous substring; and the results are ordered by
created_at descending (newest first). -/
theorem claim_C7 :
    (∀ (db : Db) (u term : String), (searchFiles db u term).length ≤ 20) ∧
    (∀ (db : Db) (u term : String) (r : SharedFileRow),
       r ∈ searchFiles db u term →
       r.user_id = u ∧
       (likeContains term r.original_name = true ∨
        likeContains term r.description = true ∨
        likeContains term r.category = true)) ∧
    (∀ (term s : String),
       (∀ c ∈ term.data, c ≠ '%' ∧ c ≠ '_') →
       likeContains term s = true →
       foldStr term <:+: foldStr s) ∧
    (∀ (db : Db) (u term : String),
       (searchFiles db u term).Pairwise (fun a b => b.created_at ≤ a.created_at)) := by
  refine ⟨?_, ?_, ?_, ?_⟩
  · intro db u term
    exact List.length_take_le _ _
  · intro db u term r hr
    unfold searchFiles at hr
    have h1 := (List.take_prefix 20 _).subset hr
    rw [mem_sortDesc, List.mem_filter] at h1
    obtain ⟨hmem, hp⟩ := h1
    rw [Bool.and_eq_true] at hp
    refine ⟨by simpa using hp.1, ?_⟩
    have h2 := hp.2
    rw [Bool.or_eq_true, Bool.or_eq_true] at h2
    tauto
  · exact fun term s hw h => likeContains_infix hw h
  · intro db u term
    unfold searchFiles
    exact List.Pairwise.sublist (List.IsPrefix.sublist (List.take_prefix 20 _))
      (pairwise_sortDesc _)

/-- Witness for C7: the term b matches rowA through its name, and a
wildcard-free LIKE match yields a case-insensitive substring. -/
theorem claim_C7_witness :
    (rowA.user_id = "u" ∧
     (likeContains "b" rowA.original_name = true ∨
      likeContains "b" rowA.description = true ∨
      likeContains "b" rowA.category = true)) ∧
    (foldStr "b" <:+: foldStr "aBc") :=
  ⟨claim_C7.2.1 dbA "u" "b" rowA (by decide),
   claim_C7.2.2.1 "b" "aBc" (by decide) (by decide)⟩

end FileStore
